import Mathlib

/- Shallow embedding of the Blog Management System (src/main.py).

   The in-memory Python dicts (users_db, posts_db, likes_db, comments_db) are
   modelled as association lists that preserve Python dict insertion order:
   assigning to a fresh key appends at the end, assigning to an existing key
   replaces the value in place, and deleting removes the (unique) entry.
   Python sets of usernames are modelled as duplicate-free lists (only
   membership, add, remove and len are used by the source). Timestamps
   (datetime.utcnow()) are modelled as an abstract Nat clock value passed to
   each handler; HTTP errors (HTTPException) are values carrying status code
   and detail; handler bodies are pure state-passing functions returning
   (Except HTTPError result, new state). Authentication (get_current_user,
   a FastAPI dependency that runs before the handler body) is modelled as an
   Except HTTPError String input: if it failed, the handler body never runs. -/

set_option maxHeartbeats 1000000

namespace Blog

instance {ε α : Type} [DecidableEq ε] [DecidableEq α] : DecidableEq (Except ε α) := fun a b =>
  match a, b with
  | .error x, .error y =>
    if h : x = y then .isTrue (congrArg Except.error h)
    else .isFalse (fun hc => h (Except.error.inj hc))
  | .error _, .ok _ => .isFalse (fun hc => Except.noConfusion hc)
  | .ok _, .error _ => .isFalse (fun hc => Except.noConfusion hc)
  | .ok x, .ok y =>
    if h : x = y then .isTrue (congrArg Except.ok h)
    else .isFalse (fun hc => h (Except.ok.inj hc))

/-- Association-list dictionary lookup, modelling Python `d[k]` / `d.get(k)`. -/
def dictGet {κ α : Type} [DecidableEq κ] : List (κ × α) → κ → Option α
  | [], _ => none
  | kv :: rest, k => if kv.1 = k then some kv.2 else dictGet rest k

/-- Python `k in d`. -/
def dictContains {κ α : Type} [DecidableEq κ] (d : List (κ × α)) (k : κ) : Bool :=
  (dictGet d k).isSome

/-- Python `d[k] = v`: replaces the value in place when the key is present
(keeping dict order), otherwise appends the new key at the end, exactly as
Python dicts do. -/
def dictSet {κ α : Type} [DecidableEq κ] : List (κ × α) → κ → α → List (κ × α)
  | [], k, v => [(k, v)]
  | kv :: rest, k, v => if kv.1 = k then (k, v) :: rest else kv :: dictSet rest k v

/-- Python `del d[k]` (dict keys are unique, so removing the first hit suffices). -/
def dictErase {κ α : Type} [DecidableEq κ] : List (κ × α) → κ → List (κ × α)
  | [], _ => []
  | kv :: rest, k => if kv.1 = k then rest else kv :: dictErase rest k

/-- Record stored in `users_db` by `register`. -/
structure UserRecord where
  username : String
  email : String
  hashed_password : String
deriving DecidableEq

/-- Response model `UserResponse`. -/
structure UserResponse where
  username : String
  email : String
deriving DecidableEq

/-- Response model `Token`. -/
structure Token where
  access_token : String
  token_type : String
deriving DecidableEq

/-- Record stored in `posts_db` by `create_post` (the `post_data` dict). -/
structure PostData where
  id : Nat
  title : String
  content : String
  author : String
  created_at : Nat
  updated_at : Nat
deriving DecidableEq

/-- Request model `BlogPostUpdate`: both fields optional. -/
structure BlogPostUpdate where
  title : Option String
  content : Option String
deriving DecidableEq

/-- Response model `BlogPostResponse`. -/
structure BlogPostResponse where
  id : Nat
  title : String
  content : String
  author : String
  created_at : Nat
  updated_at : Nat
  likes_count : Nat
  comments_count : Nat
deriving DecidableEq

/-- Record stored in `comments_db` by `add_comment` (the `comment_data` dict). -/
structure CommentData where
  id : Nat
  content : String
  author : String
  post_id : Nat
  created_at : Nat
deriving DecidableEq

/-- Response model `CommentResponse` (same fields as the stored comment dict). -/
structure CommentResponse where
  id : Nat
  content : String
  author : String
  post_id : Nat
  created_at : Nat
deriving DecidableEq

/-- Response model `LikeResponse`. -/
structure LikeResponse where
  message : String
  likes_count : Nat
deriving DecidableEq

/-- Value carried by a raised `HTTPException`. -/
structure HTTPError where
  status_code : Nat
  detail : String
deriving DecidableEq

/-- The module-level mutable stores and counters of src/main.py. -/
structure AppState where
  users_db : List (String × UserRecord)
  posts_db : List (Nat × PostData)
  likes_db : List (Nat × List String)
  comments_db : List (Nat × List CommentData)
  post_counter : Nat
  comment_counter : Nat
deriving DecidableEq

/-- The stores as initialised at module load: all empty, counters 0. -/
def initialState : AppState :=
  { users_db := [], posts_db := [], likes_db := [], comments_db := [],
    post_counter := 0, comment_counter := 0 }

/-- Models `pwd_context.hash` abstractly as a deterministic injective tagging;
the source's bcrypt details are outside the embedding, only the relation
`verify_password p (hash_password p) = true` is relied upon. -/
def hash_password (password : String) : String :=
  String.append "bcrypt$" password

/-- Models `pwd_context.verify`: checks the plaintext against the stored hash. -/
def verify_password (plain_password hashed_password : String) : Bool :=
  hash_password plain_password == hashed_password

/-- Models `create_access_token` abstractly (JWT encoding is opaque crypto
from the embedding's point of view; no claim inspects token contents). -/
def create_access_token (username : String) : String :=
  String.append "jwt$" username

/-- Handler `register` (POST /api/auth/register). -/
def register (s : AppState) (username email password : String) :
    Except HTTPError UserResponse × AppState :=
  if dictContains s.users_db username then
    (.error ⟨400, "Username already registered"⟩, s)
  else
    let hashed_password := hash_password password
    (.ok ⟨username, email⟩,
      { s with users_db := dictSet s.users_db username ⟨username, email, hashed_password⟩ })

/-- Handler `login` (POST /api/auth/login); touches no store. -/
def login (s : AppState) (username password : String) : Except HTTPError Token :=
  match dictGet s.users_db username with
  | none => .error ⟨401, "Incorrect username or password"⟩
  | some user_data =>
    if verify_password password user_data.hashed_password then
      .ok ⟨create_access_token username, "bearer"⟩
    else
      .error ⟨401, "Incorrect username or password"⟩

/-- Handler `create_post` (POST /api/posts). `auth` is the outcome of the
`get_current_user` dependency; `now` models `datetime.utcnow()`. -/
def create_post (s : AppState) (auth : Except HTTPError String)
    (title content : String) (now : Nat) :
    Except HTTPError BlogPostResponse × AppState :=
  match auth with
  | .error e => (.error e, s)
  | .ok current_user =>
    let new_counter := s.post_counter + 1
    let post_data : PostData :=
      ⟨new_counter, title, content, current_user, now, now⟩
    (.ok ⟨new_counter, title, content, current_user, now, now, 0, 0⟩,
      { s with
        post_counter := new_counter,
        posts_db := dictSet s.posts_db new_counter post_data,
        likes_db := dictSet s.likes_db new_counter [],
        comments_db := dictSet s.comments_db new_counter [] })

/-- Composition `BlogPostResponse(**post_data, likes_count=..., comments_count=...)`
with the counts read from the like and comment stores under key `post_id`. -/
def response_of (s : AppState) (post_id : Nat) (pd : PostData) : BlogPostResponse :=
  ⟨pd.id, pd.title, pd.content, pd.author, pd.created_at, pd.updated_at,
    ((dictGet s.likes_db post_id).getD []).length,
    ((dictGet s.comments_db post_id).getD []).length⟩

/-- Stable insertion of `x` below every already-placed element whose
`created_at` is greater than or equal; building block of the model of
Python's stable `sorted(result, key=lambda x: x.created_at, reverse=True)`. -/
def insertByCreatedDesc (x : BlogPostResponse) :
    List BlogPostResponse → List BlogPostResponse
  | [] => [x]
  | y :: ys =>
    if x.created_at ≤ y.created_at then y :: insertByCreatedDesc x ys
    else x :: y :: ys

/-- Models `sorted(result, key=lambda x: x.created_at, reverse=True)`: a stable
sort descending on `created_at` (CPython's sorted is stable, and stability is
preserved under `reverse=True`): elements are taken left to right and each is
placed after all earlier elements with a greater-or-equal key. -/
def sortByCreatedDesc (l : List BlogPostResponse) : List BlogPostResponse :=
  l.foldl (fun acc x => insertByCreatedDesc x acc) []

/-- Handler `get_all_posts` (GET /api/posts): builds a response per stored post
in dict iteration (= insertion) order, then sorts by `created_at` descending. -/
def get_all_posts (s : AppState) : List BlogPostResponse :=
  sortByCreatedDesc (s.posts_db.map (fun kv => response_of s kv.1 kv.2))

/-- Handler `get_post` (GET /api/posts/{post_id}). -/
def get_post (s : AppState) (post_id : Nat) : Except HTTPError BlogPostResponse :=
  match dictGet s.posts_db post_id with
  | none => .error ⟨404, "Post not found"⟩
  | some post_data => .ok (response_of s post_id post_data)

/-- Handler `update_post` (PUT /api/posts/{post_id}): patches only the provided
fields in place, refreshes `updated_at`, and returns the composed response. -/
def update_post (s : AppState) (post_id : Nat) (auth : Except HTTPError String)
    (post_update : BlogPostUpdate) (now : Nat) :
    Except HTTPError BlogPostResponse × AppState :=
  match auth with
  | .error e => (.error e, s)
  | .ok current_user =>
    match dictGet s.posts_db post_id with
    | none => (.error ⟨404, "Post not found"⟩, s)
    | some post_data =>
      if post_data.author ≠ current_user then
        (.error ⟨403, "Not authorized to update this post"⟩, s)
      else
        let pd1 := match post_update.title with
          | some t => { post_data with title := t }
          | none => post_data
        let pd2 := match post_update.content with
          | some c => { pd1 with content := c }
          | none => pd1
        let pd3 := { pd2 with updated_at := now }
        let s' := { s with posts_db := dictSet s.posts_db post_id pd3 }
        (.ok (response_of s' post_id pd3), s')

/-- Handler `delete_post` (DELETE /api/posts/{post_id}): on success removes the
post and (conditionally, mirroring the source's `if post_id in ...` guards) its
like-set and comment list. -/
def delete_post (s : AppState) (post_id : Nat) (auth : Except HTTPError String) :
    Except HTTPError String × AppState :=
  match auth with
  | .error e => (.error e, s)
  | .ok current_user =>
    match dictGet s.posts_db post_id with
    | none => (.error ⟨404, "Post not found"⟩, s)
    | some post_data =>
      if post_data.author ≠ current_user then
        (.error ⟨403, "Not authorized to delete this post"⟩, s)
      else
        (.ok "Post deleted successfully",
          { s with
            posts_db := dictErase s.posts_db post_id,
            likes_db :=
              if dictContains s.likes_db post_id then dictErase s.likes_db post_id
              else s.likes_db,
            comments_db :=
              if dictContains s.comments_db post_id then dictErase s.comments_db post_id
              else s.comments_db })

/-- Handler `like_post` (POST /api/posts/{post_id}/like). Mirrors the source
order: 404 check, defensive install of an empty like-set, already-liked check,
then the set add (modelled as appending to a duplicate-free list). -/
def like_post (s : AppState) (post_id : Nat) (auth : Except HTTPError String) :
    Except HTTPError LikeResponse × AppState :=
  match auth with
  | .error e => (.error e, s)
  | .ok current_user =>
    if ¬ dictContains s.posts_db post_id then
      (.error ⟨404, "Post not found"⟩, s)
    else
      let s1 :=
        if ¬ dictContains s.likes_db post_id then
          { s with likes_db := dictSet s.likes_db post_id [] }
        else s
      let likes := (dictGet s1.likes_db post_id).getD []
      if current_user ∈ likes then
        (.error ⟨400, "You have already liked this post"⟩, s1)
      else
        let likes' := likes ++ [current_user]
        (.ok ⟨"Post liked successfully", likes'.length⟩,
          { s1 with likes_db := dictSet s1.likes_db post_id likes' })

/-- Handler `unlike_post` (DELETE /api/posts/{post_id}/like). -/
def unlike_post (s : AppState) (post_id : Nat) (auth : Except HTTPError String) :
    Except HTTPError LikeResponse × AppState :=
  match auth with
  | .error e => (.error e, s)
  | .ok current_user =>
    if ¬ dictContains s.posts_db post_id then
      (.error ⟨404, "Post not found"⟩, s)
    else
      let likes := (dictGet s.likes_db post_id).getD []
      if ¬ dictContains s.likes_db post_id ∨ ¬ current_user ∈ likes then
        (.error ⟨400, "You haven't liked this post"⟩, s)
      else
        let likes' := likes.erase current_user
        (.ok ⟨"Post unliked successfully", likes'.length⟩,
          { s with likes_db := dictSet s.likes_db post_id likes' })

/-- Handler `add_comment` (POST /api/posts/{post_id}/comment): after the 404
check, increments the global comment counter, defensively installs an empty
comment list, and appends the new comment at the end. -/
def add_comment (s : AppState) (post_id : Nat) (auth : Except HTTPError String)
    (content : String) (now : Nat) :
    Except HTTPError CommentResponse × AppState :=
  match auth with
  | .error e => (.error e, s)
  | .ok current_user =>
    if ¬ dictContains s.posts_db post_id then
      (.error ⟨404, "Post not found"⟩, s)
    else
      let new_counter := s.comment_counter + 1
      let comment_data : CommentData :=
        ⟨new_counter, content, current_user, post_id, now⟩
      let s1 := { s with comment_counter := new_counter }
      let s2 :=
        if ¬ dictContains s1.comments_db post_id then
          { s1 with comments_db := dictSet s1.comments_db post_id [] }
        else s1
      let comments := (dictGet s2.comments_db post_id).getD []
      (.ok ⟨new_counter, content, current_user, post_id, now⟩,
        { s2 with comments_db := dictSet s2.comments_db post_id (comments ++ [comment_data]) })

/-- Handler `get_comments` (GET /api/posts/{post_id}/comments). -/
def get_comments (s : AppState) (post_id : Nat) :
    Except HTTPError (List CommentResponse) :=
  if ¬ dictContains s.posts_db post_id then
    .error ⟨404, "Post not found"⟩
  else
    .ok (((dictGet s.comments_db post_id).getD []).map
      (fun c => ⟨c.id, c.content, c.author, c.post_id, c.created_at⟩))

/-- One API request, with the authentication outcome and the clock value as
abstract inputs (reads are included; they never change the stores). -/
inductive Op where
  | opRegister (username email password : String)
  | opLogin (username password : String)
  | opCreatePost (auth : Except HTTPError String) (title content : String) (now : Nat)
  | opGetAllPosts
  | opGetPost (post_id : Nat)
  | opUpdatePost (post_id : Nat) (auth : Except HTTPError String)
      (post_update : BlogPostUpdate) (now : Nat)
  | opDeletePost (post_id : Nat) (auth : Except HTTPError String)
  | opLikePost (post_id : Nat) (auth : Except HTTPError String)
  | opUnlikePost (post_id : Nat) (auth : Except HTTPError String)
  | opAddComment (post_id : Nat) (auth : Except HTTPError String)
      (content : String) (now : Nat)
  | opGetComments (post_id : Nat)
deriving DecidableEq

/-- State transition of one request (the response value is discarded; `login`,
`get_all_posts`, `get_post` and `get_comments` never mutate the stores). -/
def step (s : AppState) : Op → AppState
  | .opRegister u e p => (register s u e p).2
  | .opLogin _ _ => s
  | .opCreatePost auth t c now => (create_post s auth t c now).2
  | .opGetAllPosts => s
  | .opGetPost _ => s
  | .opUpdatePost p auth patch now => (update_post s p auth patch now).2
  | .opDeletePost p auth => (delete_post s p auth).2
  | .opLikePost p auth => (like_post s p auth).2
  | .opUnlikePost p auth => (unlike_post s p auth).2
  | .opAddComment p auth c now => (add_comment s p auth c now).2
  | .opGetComments _ => s

/-- Runs a sequence of requests from a starting state. -/
def runTrace (s : AppState) : List Op → AppState
  | [] => s
  | op :: rest => runTrace (step s op) rest

/-- The post id assigned by one request in state `s`: only a post creation
whose authentication succeeded assigns one (`post_counter + 1`). -/
def createdIdOf (s : AppState) : Op → List Nat
  | .opCreatePost (.ok _) _ _ _ => [s.post_counter + 1]
  | .opCreatePost (.error _) _ _ _ => []
  | .opRegister _ _ _ => []
  | .opLogin _ _ => []
  | .opGetAllPosts => []
  | .opGetPost _ => []
  | .opUpdatePost _ _ _ _ => []
  | .opDeletePost _ _ => []
  | .opLikePost _ _ => []
  | .opUnlikePost _ _ => []
  | .opAddComment _ _ _ _ => []
  | .opGetComments _ => []

/-- The comment id assigned by one request in state `s`: only a comment
creation whose authentication succeeded and whose target post exists assigns
one (`comment_counter + 1`, a single counter shared across all posts). -/
def commentIdOf (s : AppState) : Op → List Nat
  | .opAddComment p (.ok _) _ _ =>
    if dictContains s.posts_db p then [s.comment_counter + 1] else []
  | .opAddComment _ (.error _) _ _ => []
  | .opCreatePost _ _ _ _ => []
  | .opRegister _ _ _ => []
  | .opLogin _ _ => []
  | .opGetAllPosts => []
  | .opGetPost _ => []
  | .opUpdatePost _ _ _ _ => []
  | .opDeletePost _ _ => []
  | .opLikePost _ _ => []
  | .opUnlikePost _ _ => []
  | .opGetComments _ => []

/-- The post ids assigned by the successful post creations along a trace, in
order. -/
def postIdsAssigned (s : AppState) : List Op → List Nat
  | [] => []
  | op :: rest => createdIdOf s op ++ postIdsAssigned (step s op) rest

/-- The comment ids assigned by the successful comment creations along a
trace, in order. -/
def commentIdsAssigned (s : AppState) : List Op → List Nat
  | [] => []
  | op :: rest => commentIdOf s op ++ commentIdsAssigned (step s op) rest

/-- The like-set stored for a post id (empty when absent, as `likes_db.get`). -/
def likesOf (s : AppState) (post_id : Nat) : List String :=
  (dictGet s.likes_db post_id).getD []

/-- The comment sequence stored for a post id (empty when absent). -/
def commentsOf (s : AppState) (post_id : Nat) : List CommentData :=
  (dictGet s.comments_db post_id).getD []

section DictLemmas

variable {κ α : Type} [DecidableEq κ]

theorem dictGet_dictSet_self (d : List (κ × α)) (k : κ) (v : α) :
    dictGet (dictSet d k v) k = some v := by
  induction d with
  | nil => simp [dictGet, dictSet]
  | cons kv rest ih =>
    by_cases h : kv.1 = k
    · simp [dictGet, dictSet, h]
    · simp [dictGet, dictSet, h, ih]

theorem dictGet_dictSet_ne (d : List (κ × α)) (k k' : κ) (v : α) (h : k ≠ k') :
    dictGet (dictSet d k v) k' = dictGet d k' := by
  induction d with
  | nil => simp [dictGet, dictSet, h]
  | cons kv rest ih =>
    by_cases hk : kv.1 = k
    · simp [dictGet, dictSet, hk, h]
    · by_cases hk' : kv.1 = k'
      · simp [dictGet, dictSet, hk, hk', Ne.symm h]
      · simp [dictGet, dictSet, hk, hk', ih]

theorem dictGet_dictErase_self (d : List (κ × α)) (k : κ)
    (hnd : (d.map (fun kv => kv.1)).Nodup) :
    dictGet (dictErase d k) k = none := by
  induction d with
  | nil => simp [dictGet, dictErase]
  | cons kv rest ih =>
    simp only [List.map_cons, List.nodup_cons] at hnd
    by_cases h : kv.1 = k
    · subst h
      cases hget : dictGet rest kv.1 with
      | none => simp [dictErase, hget]
      | some v =>
        exfalso
        have : kv.1 ∈ rest.map (fun kv => kv.1) := by
          clear ih hnd
          induction rest with
          | nil => simp [dictGet] at hget
          | cons kv' rest' ih' =>
            simp only [dictGet] at hget
            by_cases h' : kv'.1 = kv.1
            · simp [h']
            · simp only [h', if_false] at hget
              simp [ih' hget]
        exact hnd.1 this
    · simp [dictGet, dictErase, h, ih hnd.2]

theorem dictGet_dictErase_ne (d : List (κ × α)) (k k' : κ) (h : k ≠ k') :
    dictGet (dictErase d k) k' = dictGet d k' := by
  induction d with
  | nil => simp [dictGet, dictErase]
  | cons kv rest ih =>
    by_cases hk : kv.1 = k
    · subst hk
      simp [dictGet, dictErase, h]
    · simp [dictGet, dictErase, hk, ih]

theorem dictGet_mem (d : List (κ × α)) (k : κ) (v : α)
    (h : dictGet d k = some v) : (k, v) ∈ d := by
  induction d with
  | nil => simp [dictGet] at h
  | cons kv rest ih =>
    cases kv with
    | mk k0 v0 =>
      simp only [dictGet] at h
      by_cases hk : k0 = k
      · simp only [hk, if_true, Option.some.injEq] at h
        subst hk
        subst h
        exact List.mem_cons_self _ _
      · simp only [hk, if_false] at h
        exact List.mem_cons_of_mem _ (ih h)

theorem dictContains_iff_mem_keys (d : List (κ × α)) (k : κ) :
    dictContains d k = true ↔ k ∈ d.map (fun kv => kv.1) := by
  induction d with
  | nil => simp [dictContains, dictGet]
  | cons kv rest ih =>
    by_cases h : kv.1 = k
    · simp [dictContains, dictGet, h]
    · simp only [dictContains, dictGet, h, if_false, List.map_cons, List.mem_cons]
      rw [dictContains] at ih
      rw [ih]
      constructor
      · intro hm
        exact Or.inr hm
      · intro hm
        rcases hm with hm | hm
        · exact absurd hm.symm h
        · exact hm

theorem dictSet_keys_of_contains (d : List (κ × α)) (k : κ) (v : α)
    (h : dictContains d k = true) :
    (dictSet d k v).map (fun kv => kv.1) = d.map (fun kv => kv.1) := by
  induction d with
  | nil => simp [dictContains, dictGet] at h
  | cons kv rest ih =>
    by_cases hk : kv.1 = k
    · simp [dictSet, hk]
    · simp only [dictContains, dictGet, hk, if_false] at h
      simp [dictSet, hk, ih h]

theorem dictSet_of_not_contains (d : List (κ × α)) (k : κ) (v : α)
    (h : dictContains d k = false) :
    dictSet d k v = d ++ [(k, v)] := by
  induction d with
  | nil => simp [dictSet]
  | cons kv rest ih =>
    by_cases hk : kv.1 = k
    · simp [dictContains, dictGet, hk] at h
    · simp only [dictContains, dictGet, hk, if_false] at h
      simp [dictSet, hk, ih h]

theorem dictErase_keys (d : List (κ × α)) (k : κ) :
    (dictErase d k).map (fun kv => kv.1) = (d.map (fun kv => kv.1)).eraseP (fun x => decide (x = k)) := by
  induction d with
  | nil => simp [dictErase]
  | cons kv rest ih =>
    by_cases hk : kv.1 = k
    · simp [dictErase, hk, List.eraseP_cons]
    · simp [dictErase, hk, List.eraseP_cons, ih]

theorem dictErase_sublist (d : List (κ × α)) (k : κ) :
    (dictErase d k).Sublist d := by
  induction d with
  | nil => simp [dictErase]
  | cons kv rest ih =>
    by_cases hk : kv.1 = k
    · simp only [dictErase, hk, if_true]
      exact List.sublist_cons_self kv rest
    · simp only [dictErase, hk, if_false]
      exact List.Sublist.cons₂ kv ih

theorem mem_dictSet (d : List (κ × α)) (k : κ) (v : α) (kv' : κ × α)
    (h : kv' ∈ dictSet d k v) : kv' = (k, v) ∨ kv' ∈ d := by
  induction d with
  | nil => simpa [dictSet] using h
  | cons kv rest ih =>
    by_cases hk : kv.1 = k
    · simp only [dictSet, hk, if_true, List.mem_cons] at h
      rcases h with h | h
      · exact Or.inl h
      · exact Or.inr (List.mem_cons_of_mem _ h)
    · simp only [dictSet, hk, if_false, List.mem_cons] at h
      rcases h with h | h
      · exact Or.inr (by simp [h])
      · rcases ih h with h' | h'
        · exact Or.inl h'
        · exact Or.inr (List.mem_cons_of_mem _ h')

end DictLemmas

theorem dictContains_of_get {κ α : Type} [DecidableEq κ] {d : List (κ × α)} {k : κ} {v : α}
    (h : dictGet d k = some v) : dictContains d k = true := by
  simp [dictContains, h]

theorem dictContains_eq_of_keys_eq {κ α β : Type} [DecidableEq κ]
    {d : List (κ × α)} {d' : List (κ × β)} (k : κ)
    (h : d.map (fun kv => kv.1) = d'.map (fun kv => kv.1)) :
    dictContains d k = dictContains d' k := by
  have h1 := dictContains_iff_mem_keys d k
  have h2 := dictContains_iff_mem_keys d' k
  rw [h] at h1
  cases hd : dictContains d k <;> cases hd' : dictContains d' k <;> simp_all

theorem not_contains_of_bound {α : Type} {d : List (Nat × α)} {pc : Nat}
    (hb : ∀ kv ∈ d, kv.1 ≤ pc) : dictContains d (pc + 1) = false := by
  cases hc : dictContains d (pc + 1) with
  | false => rfl
  | true =>
    exfalso
    have hm := (dictContains_iff_mem_keys d (pc + 1)).1 hc
    rcases List.mem_map.1 hm with ⟨kv, hkv, hk⟩
    have := hb kv hkv
    omega

/-- Relational invariant of the stores: the like and comment stores have
exactly the posts' keys, post keys are strictly increasing in dict order,
each stored post's `id` field equals its key, keys never exceed the counter,
and every like-set is duplicate-free. -/
def StoreInvOn (posts : List (Nat × PostData)) (likes : List (Nat × List String))
    (comments : List (Nat × List CommentData)) (pc : Nat) : Prop :=
  likes.map (fun kv => kv.1) = posts.map (fun kv => kv.1) ∧
  comments.map (fun kv => kv.1) = posts.map (fun kv => kv.1) ∧
  (posts.map (fun kv => kv.1)).Pairwise (fun a b => a < b) ∧
  (∀ kv ∈ posts, kv.2.id = kv.1) ∧
  (∀ kv ∈ posts, kv.1 ≤ pc) ∧
  (∀ kv ∈ likes, kv.2.Nodup)

/-- The store invariant, read off an application state. -/
def StoreInv (s : AppState) : Prop :=
  StoreInvOn s.posts_db s.likes_db s.comments_db s.post_counter

theorem dictSet_dictSet {κ α : Type} [DecidableEq κ] (d : List (κ × α)) (k : κ) (v v' : α) :
    dictSet (dictSet d k v) k v' = dictSet d k v' := by
  induction d with
  | nil => simp [dictSet]
  | cons kv rest ih =>
    by_cases hk : kv.1 = k
    · simp [dictSet, hk]
    · simp [dictSet, hk, ih]

/-- The post record produced by a successful `update_post`: fields present in
the patch overwrite the old values, `updated_at` is refreshed, everything
else (id, author, created_at, omitted fields) is kept. -/
def appliedPatch (pd : PostData) (patch : BlogPostUpdate) (now : Nat) : PostData :=
  ⟨pd.id, patch.title.getD pd.title, patch.content.getD pd.content,
    pd.author, pd.created_at, now⟩

section Characterizations

variable (s : AppState)

theorem register_taken (u e p : String) (h : dictContains s.users_db u = true) :
    register s u e p = (.error ⟨400, "Username already registered"⟩, s) := by
  simp [register, h]

theorem register_free (u e p : String) (h : dictContains s.users_db u = false) :
    register s u e p =
      (.ok ⟨u, e⟩,
        { s with users_db := dictSet s.users_db u ⟨u, e, hash_password p⟩ }) := by
  simp [register, h]

theorem login_unknown (u p : String) (h : dictGet s.users_db u = none) :
    login s u p = .error ⟨401, "Incorrect username or password"⟩ := by
  simp [login, h]

theorem login_wrong (u p : String) (ur : UserRecord) (h : dictGet s.users_db u = some ur)
    (hv : verify_password p ur.hashed_password = false) :
    login s u p = .error ⟨401, "Incorrect username or password"⟩ := by
  simp [login, h, hv]

theorem login_ok (u p : String) (ur : UserRecord) (h : dictGet s.users_db u = some ur)
    (hv : verify_password p ur.hashed_password = true) :
    login s u p = .ok ⟨create_access_token u, "bearer"⟩ := by
  simp [login, h, hv]

theorem create_post_auth_err (e : HTTPError) (t c : String) (now : Nat) :
    create_post s (.error e) t c now = (.error e, s) := rfl

theorem create_post_ok (u t c : String) (now : Nat) :
    create_post s (.ok u) t c now =
      (.ok ⟨s.post_counter + 1, t, c, u, now, now, 0, 0⟩,
        { s with
          post_counter := s.post_counter + 1,
          posts_db := dictSet s.posts_db (s.post_counter + 1) ⟨s.post_counter + 1, t, c, u, now, now⟩,
          likes_db := dictSet s.likes_db (s.post_counter + 1) [],
          comments_db := dictSet s.comments_db (s.post_counter + 1) [] }) := rfl

theorem update_post_auth_err (p : Nat) (e : HTTPError) (patch : BlogPostUpdate) (now : Nat) :
    update_post s p (.error e) patch now = (.error e, s) := rfl

theorem update_post_404 (p : Nat) (u : String) (patch : BlogPostUpdate) (now : Nat)
    (h : dictGet s.posts_db p = none) :
    update_post s p (.ok u) patch now = (.error ⟨404, "Post not found"⟩, s) := by
  simp [update_post, h]

theorem update_post_403 (p : Nat) (u : String) (patch : BlogPostUpdate) (now : Nat)
    (pd : PostData) (h : dictGet s.posts_db p = some pd) (hau : pd.author ≠ u) :
    update_post s p (.ok u) patch now =
      (.error ⟨403, "Not authorized to update this post"⟩, s) := by
  simp [update_post, h, hau]

theorem update_post_ok (p : Nat) (u : String) (patch : BlogPostUpdate) (now : Nat)
    (pd : PostData) (h : dictGet s.posts_db p = some pd) (hau : pd.author = u) :
    update_post s p (.ok u) patch now =
      (.ok (response_of
          { s with posts_db := dictSet s.posts_db p (appliedPatch pd patch now) } p
          (appliedPatch pd patch now)),
        { s with posts_db := dictSet s.posts_db p (appliedPatch pd patch now) }) := by
  obtain ⟨pt, pct⟩ := patch
  simp only [update_post, h, appliedPatch]
  rw [if_neg (fun hne => hne hau)]
  cases pt <;> cases pct <;> rfl

theorem delete_post_auth_err (p : Nat) (e : HTTPError) :
    delete_post s p (.error e) = (.error e, s) := rfl

theorem delete_post_404 (p : Nat) (u : String) (h : dictGet s.posts_db p = none) :
    delete_post s p (.ok u) = (.error ⟨404, "Post not found"⟩, s) := by
  simp [delete_post, h]

theorem delete_post_403 (p : Nat) (u : String) (pd : PostData)
    (h : dictGet s.posts_db p = some pd) (hau : pd.author ≠ u) :
    delete_post s p (.ok u) = (.error ⟨403, "Not authorized to delete this post"⟩, s) := by
  simp [delete_post, h, hau]

theorem delete_post_ok (p : Nat) (u : String) (pd : PostData)
    (h : dictGet s.posts_db p = some pd) (hau : pd.author = u)
    (hcl : dictContains s.likes_db p = true) (hcc : dictContains s.comments_db p = true) :
    delete_post s p (.ok u) =
      (.ok "Post deleted successfully",
        { s with
          posts_db := dictErase s.posts_db p,
          likes_db := dictErase s.likes_db p,
          comments_db := dictErase s.comments_db p }) := by
  simp only [delete_post, h]
  rw [if_neg (fun hne => hne hau), if_pos hcl, if_pos hcc]

theorem like_post_auth_err (p : Nat) (e : HTTPError) :
    like_post s p (.error e) = (.error e, s) := rfl

theorem like_post_404 (p : Nat) (u : String) (h : dictContains s.posts_db p = false) :
    like_post s p (.ok u) = (.error ⟨404, "Post not found"⟩, s) := by
  simp [like_post, h]

theorem like_post_conflict (p : Nat) (u : String) (l : List String)
    (hcp : dictContains s.posts_db p = true)
    (hgl : dictGet s.likes_db p = some l) (hmem : u ∈ l) :
    like_post s p (.ok u) = (.error ⟨400, "You have already liked this post"⟩, s) := by
  have hcl : dictContains s.likes_db p = true := by simp [dictContains, hgl]
  simp [like_post, hcp, hcl, hgl, hmem]

theorem like_post_success (p : Nat) (u : String)
    (hcp : dictContains s.posts_db p = true) (hmem : ¬ u ∈ likesOf s p) :
    like_post s p (.ok u) =
      (.ok ⟨"Post liked successfully", (likesOf s p).length + 1⟩,
        { s with likes_db := dictSet s.likes_db p (likesOf s p ++ [u]) }) := by
  rcases hgl : dictGet s.likes_db p with _ | l
  · have hcl : dictContains s.likes_db p = false := by simp [dictContains, hgl]
    simp only [likesOf, hgl, Option.getD_none] at hmem ⊢
    simp [like_post, hcp, hcl, hgl, dictGet_dictSet_self, dictSet_dictSet]
  · have hcl : dictContains s.likes_db p = true := by simp [dictContains, hgl]
    simp only [likesOf, hgl, Option.getD_some] at hmem ⊢
    simp [like_post, hcp, hcl, hgl, hmem]

theorem unlike_post_auth_err (p : Nat) (e : HTTPError) :
    unlike_post s p (.error e) = (.error e, s) := rfl

theorem unlike_post_404 (p : Nat) (u : String) (h : dictContains s.posts_db p = false) :
    unlike_post s p (.ok u) = (.error ⟨404, "Post not found"⟩, s) := by
  simp [unlike_post, h]

theorem unlike_post_notliked (p : Nat) (u : String)
    (hcp : dictContains s.posts_db p = true) (hmem : ¬ u ∈ likesOf s p) :
    unlike_post s p (.ok u) = (.error ⟨400, "You haven't liked this post"⟩, s) := by
  rcases hgl : dictGet s.likes_db p with _ | l
  · have hcl : dictContains s.likes_db p = false := by simp [dictContains, hgl]
    simp [unlike_post, hcp, hcl, hgl]
  · have hcl : dictContains s.likes_db p = true := by simp [dictContains, hgl]
    simp only [likesOf, hgl, Option.getD_some] at hmem
    simp [unlike_post, hcp, hcl, hgl, hmem]

theorem unlike_post_success (p : Nat) (u : String) (l : List String)
    (hcp : dictContains s.posts_db p = true)
    (hgl : dictGet s.likes_db p = some l) (hmem : u ∈ l) :
    unlike_post s p (.ok u) =
      (.ok ⟨"Post unliked successfully", (l.erase u).length⟩,
        { s with likes_db := dictSet s.likes_db p (l.erase u) }) := by
  have hcl : dictContains s.likes_db p = true := by simp [dictContains, hgl]
  simp [unlike_post, hcp, hcl, hgl, hmem]

theorem add_comment_auth_err (p : Nat) (e : HTTPError) (c : String) (now : Nat) :
    add_comment s p (.error e) c now = (.error e, s) := rfl

theorem add_comment_404 (p : Nat) (u c : String) (now : Nat)
    (h : dictContains s.posts_db p = false) :
    add_comment s p (.ok u) c now = (.error ⟨404, "Post not found"⟩, s) := by
  simp [add_comment, h]

theorem add_comment_ok (p : Nat) (u c : String) (now : Nat)
    (hcp : dictContains s.posts_db p = true) :
    add_comment s p (.ok u) c now =
      (.ok ⟨s.comment_counter + 1, c, u, p, now⟩,
        { s with
          comment_counter := s.comment_counter + 1,
          comments_db := dictSet s.comments_db p
            (commentsOf s p ++ [⟨s.comment_counter + 1, c, u, p, now⟩]) }) := by
  rcases hgc : dictGet s.comments_db p with _ | cl
  · have hcc : dictContains s.comments_db p = false := by simp [dictContains, hgc]
    simp [add_comment, commentsOf, hcp, hcc, hgc, dictGet_dictSet_self, dictSet_dictSet]
  · have hcc : dictContains s.comments_db p = true := by simp [dictContains, hgc]
    simp [add_comment, commentsOf, hcp, hcc, hgc]

theorem get_post_404 (p : Nat) (h : dictGet s.posts_db p = none) :
    get_post s p = .error ⟨404, "Post not found"⟩ := by
  simp [get_post, h]

theorem get_post_ok (p : Nat) (pd : PostData) (h : dictGet s.posts_db p = some pd) :
    get_post s p = .ok (response_of s p pd) := by
  simp [get_post, h]

theorem get_comments_404 (p : Nat) (h : dictContains s.posts_db p = false) :
    get_comments s p = .error ⟨404, "Post not found"⟩ := by
  simp [get_comments, h]

end Characterizations

theorem storeInvOn_create {posts likes comments pc} (pd : PostData)
    (hid : pd.id = pc + 1) (h : StoreInvOn posts likes comments pc) :
    StoreInvOn (dictSet posts (pc + 1) pd) (dictSet likes (pc + 1) [])
      (dictSet comments (pc + 1) []) (pc + 1) := by
  obtain ⟨hkl, hkc, hsort, hif, hb, hnd⟩ := h
  have hnp : dictContains posts (pc + 1) = false := not_contains_of_bound hb
  have hnl : dictContains likes (pc + 1) = false := by
    rw [dictContains_eq_of_keys_eq (pc + 1) hkl]
    exact hnp
  have hnc : dictContains comments (pc + 1) = false := by
    rw [dictContains_eq_of_keys_eq (pc + 1) hkc]
    exact hnp
  rw [dictSet_of_not_contains posts (pc + 1) pd hnp,
    dictSet_of_not_contains likes (pc + 1) [] hnl,
    dictSet_of_not_contains comments (pc + 1) [] hnc]
  refine ⟨?_, ?_, ?_, ?_, ?_, ?_⟩
  · simp [hkl]
  · simp [hkc]
  · rw [List.map_append, List.pairwise_append]
    refine ⟨hsort, by simp, ?_⟩
    intro a ha b hb'
    simp only [List.map_cons, List.map_nil, List.mem_singleton] at hb'
    subst hb'
    rcases List.mem_map.1 ha with ⟨kv, hkv, hk⟩
    have := hb kv hkv
    omega
  · intro kv hkv
    rcases List.mem_append.1 hkv with hm | hm
    · exact hif kv hm
    · simp only [List.mem_singleton] at hm
      subst hm
      simpa using hid
  · intro kv hkv
    rcases List.mem_append.1 hkv with hm | hm
    · have := hb kv hm
      omega
    · simp only [List.mem_singleton] at hm
      subst hm
      simp
  · intro kv hkv
    rcases List.mem_append.1 hkv with hm | hm
    · exact hnd kv hm
    · simp only [List.mem_singleton] at hm
      subst hm
      simp

theorem storeInvOn_update {posts likes comments pc} (p : Nat) (pd' : PostData)
    (hid : pd'.id = p) (hcont : dictContains posts p = true)
    (h : StoreInvOn posts likes comments pc) :
    StoreInvOn (dictSet posts p pd') likes comments pc := by
  obtain ⟨hkl, hkc, hsort, hif, hb, hnd⟩ := h
  have hkeys := dictSet_keys_of_contains posts p pd' hcont
  have hple : p ≤ pc := by
    rcases List.mem_map.1 ((dictContains_iff_mem_keys posts p).1 hcont) with ⟨kv, hkv, hk⟩
    have := hb kv hkv
    omega
  refine ⟨by rw [hkeys]; exact hkl, by rw [hkeys]; exact hkc, by rw [hkeys]; exact hsort,
    ?_, ?_, hnd⟩
  · intro kv hkv
    rcases mem_dictSet posts p pd' kv hkv with hm | hm
    · subst hm
      simpa using hid
    · exact hif kv hm
  · intro kv hkv
    rcases mem_dictSet posts p pd' kv hkv with hm | hm
    · subst hm
      simpa using hple
    · exact hb kv hm

theorem storeInvOn_delete {posts likes comments pc} (p : Nat)
    (h : StoreInvOn posts likes comments pc) :
    StoreInvOn (dictErase posts p) (dictErase likes p) (dictErase comments p) pc := by
  obtain ⟨hkl, hkc, hsort, hif, hb, hnd⟩ := h
  refine ⟨?_, ?_, ?_, ?_, ?_, ?_⟩
  · rw [dictErase_keys, dictErase_keys, hkl]
  · rw [dictErase_keys, dictErase_keys, hkc]
  · rw [dictErase_keys]
    exact hsort.sublist (List.eraseP_sublist _)
  · intro kv hkv
    exact hif kv ((dictErase_sublist posts p).subset hkv)
  · intro kv hkv
    exact hb kv ((dictErase_sublist posts p).subset hkv)
  · intro kv hkv
    exact hnd kv ((dictErase_sublist likes p).subset hkv)

theorem storeInvOn_like {posts likes comments pc} (p : Nat) (l : List String)
    (hcont : dictContains likes p = true) (hl : l.Nodup)
    (h : StoreInvOn posts likes comments pc) :
    StoreInvOn posts (dictSet likes p l) comments pc := by
  obtain ⟨hkl, hkc, hsort, hif, hb, hnd⟩ := h
  have hkeys := dictSet_keys_of_contains likes p l hcont
  refine ⟨by rw [hkeys]; exact hkl, hkc, hsort, hif, hb, ?_⟩
  intro kv hkv
  rcases mem_dictSet likes p l kv hkv with hm | hm
  · subst hm
    simpa using hl
  · exact hnd kv hm

theorem storeInvOn_comment {posts likes comments pc} (p : Nat) (cl : List CommentData)
    (hcont : dictContains comments p = true)
    (h : StoreInvOn posts likes comments pc) :
    StoreInvOn posts likes (dictSet comments p cl) pc := by
  obtain ⟨hkl, hkc, hsort, hif, hb, hnd⟩ := h
  have hkeys := dictSet_keys_of_contains comments p cl hcont
  exact ⟨hkl, by rw [hkeys]; exact hkc, hsort, hif, hb, hnd⟩

theorem storeInv_step (s : AppState) (op : Op) (h : StoreInv s) : StoreInv (step s op) := by
  obtain ⟨hkl, hkc, hsort, hif, hb, hnd⟩ := h
  cases op with
  | opRegister u e p =>
    show StoreInv (register s u e p).2
    cases hc : dictContains s.users_db u with
    | true =>
      rw [register_taken s u e p hc]
      exact ⟨hkl, hkc, hsort, hif, hb, hnd⟩
    | false =>
      rw [register_free s u e p hc]
      exact ⟨hkl, hkc, hsort, hif, hb, hnd⟩
  | opLogin u p => exact ⟨hkl, hkc, hsort, hif, hb, hnd⟩
  | opGetAllPosts => exact ⟨hkl, hkc, hsort, hif, hb, hnd⟩
  | opGetPost p => exact ⟨hkl, hkc, hsort, hif, hb, hnd⟩
  | opGetComments p => exact ⟨hkl, hkc, hsort, hif, hb, hnd⟩
  | opCreatePost auth t c now =>
    cases auth with
    | error e => exact ⟨hkl, hkc, hsort, hif, hb, hnd⟩
    | ok u =>
      show StoreInv (create_post s (.ok u) t c now).2
      rw [create_post_ok s u t c now]
      exact storeInvOn_create _ rfl ⟨hkl, hkc, hsort, hif, hb, hnd⟩
  | opUpdatePost p auth patch now =>
    cases auth with
    | error e => exact ⟨hkl, hkc, hsort, hif, hb, hnd⟩
    | ok u =>
      show StoreInv (update_post s p (.ok u) patch now).2
      rcases hget : dictGet s.posts_db p with _ | pd
      · rw [update_post_404 s p u patch now hget]
        exact ⟨hkl, hkc, hsort, hif, hb, hnd⟩
      · by_cases hau : pd.author = u
        · rw [update_post_ok s p u patch now pd hget hau]
          have hid : (appliedPatch pd patch now).id = p := by
            have := hif (p, pd) (dictGet_mem _ _ _ hget)
            simpa [appliedPatch] using this
          exact storeInvOn_update p _ hid (dictContains_of_get hget)
            ⟨hkl, hkc, hsort, hif, hb, hnd⟩
        · rw [update_post_403 s p u patch now pd hget hau]
          exact ⟨hkl, hkc, hsort, hif, hb, hnd⟩
  | opDeletePost p auth =>
    cases auth with
    | error e => exact ⟨hkl, hkc, hsort, hif, hb, hnd⟩
    | ok u =>
      show StoreInv (delete_post s p (.ok u)).2
      rcases hget : dictGet s.posts_db p with _ | pd
      · rw [delete_post_404 s p u hget]
        exact ⟨hkl, hkc, hsort, hif, hb, hnd⟩
      · by_cases hau : pd.author = u
        · have hcl : dictContains s.likes_db p = true := by
            rw [dictContains_eq_of_keys_eq p hkl]
            exact dictContains_of_get hget
          have hcc : dictContains s.comments_db p = true := by
            rw [dictContains_eq_of_keys_eq p hkc]
            exact dictContains_of_get hget
          rw [delete_post_ok s p u pd hget hau hcl hcc]
          exact storeInvOn_delete p ⟨hkl, hkc, hsort, hif, hb, hnd⟩
        · rw [delete_post_403 s p u pd hget hau]
          exact ⟨hkl, hkc, hsort, hif, hb, hnd⟩
  | opLikePost p auth =>
    cases auth with
    | error e => exact ⟨hkl, hkc, hsort, hif, hb, hnd⟩
    | ok u =>
      show StoreInv (like_post s p (.ok u)).2
      cases hcp : dictContains s.posts_db p with
      | false =>
        rw [like_post_404 s p u hcp]
        exact ⟨hkl, hkc, hsort, hif, hb, hnd⟩
      | true =>
        have hcl : dictContains s.likes_db p = true := by
          rw [dictContains_eq_of_keys_eq p hkl]
          exact hcp
        rcases hgl : dictGet s.likes_db p with _ | l
        · exact absurd hcl (by simp [dictContains, hgl])
        · have hlnd : l.Nodup := hnd (p, l) (dictGet_mem _ _ _ hgl)
          by_cases hmem : u ∈ l
          · rw [like_post_conflict s p u l hcp hgl hmem]
            exact ⟨hkl, hkc, hsort, hif, hb, hnd⟩
          · have hmem' : ¬ u ∈ likesOf s p := by simp [likesOf, hgl, hmem]
            rw [like_post_success s p u hcp hmem']
            refine storeInvOn_like p _ hcl ?_ ⟨hkl, hkc, hsort, hif, hb, hnd⟩
            simp [likesOf, hgl, List.nodup_append, hlnd, hmem]
  | opUnlikePost p auth =>
    cases auth with
    | error e => exact ⟨hkl, hkc, hsort, hif, hb, hnd⟩
    | ok u =>
      show StoreInv (unlike_post s p (.ok u)).2
      cases hcp : dictContains s.posts_db p with
      | false =>
        rw [unlike_post_404 s p u hcp]
        exact ⟨hkl, hkc, hsort, hif, hb, hnd⟩
      | true =>
        have hcl : dictContains s.likes_db p = true := by
          rw [dictContains_eq_of_keys_eq p hkl]
          exact hcp
        rcases hgl : dictGet s.likes_db p with _ | l
        · exact absurd hcl (by simp [dictContains, hgl])
        · by_cases hmem : u ∈ l
          · rw [unlike_post_success s p u l hcp hgl hmem]
            refine storeInvOn_like p _ hcl ?_ ⟨hkl, hkc, hsort, hif, hb, hnd⟩
            exact (hnd (p, l) (dictGet_mem _ _ _ hgl)).erase u
          · have hmem' : ¬ u ∈ likesOf s p := by simp [likesOf, hgl, hmem]
            rw [unlike_post_notliked s p u hcp hmem']
            exact ⟨hkl, hkc, hsort, hif, hb, hnd⟩
  | opAddComment p auth c now =>
    cases auth with
    | error e => exact ⟨hkl, hkc, hsort, hif, hb, hnd⟩
    | ok u =>
      show StoreInv (add_comment s p (.ok u) c now).2
      cases hcp : dictContains s.posts_db p with
      | false =>
        rw [add_comment_404 s p u c now hcp]
        exact ⟨hkl, hkc, hsort, hif, hb, hnd⟩
      | true =>
        have hcc : dictContains s.comments_db p = true := by
          rw [dictContains_eq_of_keys_eq p hkc]
          exact hcp
        rw [add_comment_ok s p u c now hcp]
        exact storeInvOn_comment p _ hcc ⟨hkl, hkc, hsort, hif, hb, hnd⟩

theorem storeInv_initial : StoreInv initialState := by
  exact ⟨rfl, rfl, by simp [initialState], by simp [initialState], by simp [initialState],
    by simp [initialState]⟩

theorem storeInv_run (ops : List Op) (s : AppState) (h : StoreInv s) :
    StoreInv (runTrace s ops) := by
  induction ops generalizing s with
  | nil => exact h
  | cons op rest ih => exact ih _ (storeInv_step s op h)

theorem mem_insertByCreatedDesc (x z : BlogPostResponse) (l : List BlogPostResponse) :
    z ∈ insertByCreatedDesc x l ↔ z = x ∨ z ∈ l := by
  induction l with
  | nil => simp [insertByCreatedDesc]
  | cons y ys ih =>
    by_cases hle : x.created_at ≤ y.created_at
    · simp only [insertByCreatedDesc, if_pos hle, List.mem_cons, ih]
      tauto
    · simp only [insertByCreatedDesc, if_neg hle, List.mem_cons]

theorem insertByCreatedDesc_perm (x : BlogPostResponse) (l : List BlogPostResponse) :
    (insertByCreatedDesc x l).Perm (x :: l) := by
  induction l with
  | nil => simp [insertByCreatedDesc]
  | cons y ys ih =>
    by_cases hle : x.created_at ≤ y.created_at
    · simp only [insertByCreatedDesc, if_pos hle]
      exact (ih.cons y).trans (List.Perm.swap x y ys)
    · simp only [insertByCreatedDesc, if_neg hle]
      exact List.Perm.refl _

theorem sortByCreatedDesc_aux_perm (l : List BlogPostResponse) :
    ∀ acc, (l.foldl (fun a x => insertByCreatedDesc x a) acc).Perm (l ++ acc) := by
  induction l with
  | nil => simp
  | cons x lt ih =>
    intro acc
    simp only [List.foldl_cons]
    refine ((ih (insertByCreatedDesc x acc)).trans ?_)
    have h1 : (lt ++ insertByCreatedDesc x acc).Perm (lt ++ x :: acc) :=
      List.Perm.append_left lt (insertByCreatedDesc_perm x acc)
    exact h1.trans List.perm_middle

theorem sortByCreatedDesc_perm (l : List BlogPostResponse) :
    (sortByCreatedDesc l).Perm l := by
  have h := sortByCreatedDesc_aux_perm l []
  simpa [sortByCreatedDesc] using h

theorem pairwise_insertByCreatedDesc {x : BlogPostResponse} {l : List BlogPostResponse}
    (hl : l.Pairwise (fun a b =>
      b.created_at ≤ a.created_at ∧ (a.created_at = b.created_at → a.id < b.id)))
    (hx : ∀ y ∈ l, y.id < x.id) :
    (insertByCreatedDesc x l).Pairwise (fun a b =>
      b.created_at ≤ a.created_at ∧ (a.created_at = b.created_at → a.id < b.id)) := by
  induction l with
  | nil => simp [insertByCreatedDesc]
  | cons y ys ih =>
    rcases List.pairwise_cons.1 hl with ⟨hy, hys⟩
    by_cases hle : x.created_at ≤ y.created_at
    · simp only [insertByCreatedDesc, if_pos hle]
      refine List.pairwise_cons.2
        ⟨?_, ih hys (fun z hz => hx z (List.mem_cons_of_mem _ hz))⟩
      intro z hz
      rcases (mem_insertByCreatedDesc x z ys).1 hz with rfl | hzys
      · exact ⟨hle, fun _ => hx y (List.mem_cons_self _ _)⟩
      · exact hy z hzys
    · simp only [insertByCreatedDesc, if_neg hle]
      have hxy : y.created_at < x.created_at := by omega
      refine List.pairwise_cons.2 ⟨?_, hl⟩
      intro z hz
      rcases List.mem_cons.1 hz with rfl | hzys
      · exact ⟨Nat.le_of_lt hxy, fun he => by omega⟩
      · have h1 := (hy z hzys).1
        exact ⟨le_trans h1 (Nat.le_of_lt hxy), fun he => by omega⟩

theorem pairwise_sortByCreatedDesc_aux (l : List BlogPostResponse) :
    ∀ acc,
    acc.Pairwise (fun a b =>
      b.created_at ≤ a.created_at ∧ (a.created_at = b.created_at → a.id < b.id)) →
    l.Pairwise (fun a b => a.id < b.id) →
    (∀ y ∈ acc, ∀ x ∈ l, y.id < x.id) →
    (l.foldl (fun a x => insertByCreatedDesc x a) acc).Pairwise (fun a b =>
      b.created_at ≤ a.created_at ∧ (a.created_at = b.created_at → a.id < b.id)) := by
  induction l with
  | nil =>
    intro acc hacc _ _
    exact hacc
  | cons x lt ih =>
    intro acc hacc hl hcross
    simp only [List.foldl_cons]
    rcases List.pairwise_cons.1 hl with ⟨hx, hl'⟩
    refine ih (insertByCreatedDesc x acc) ?_ hl' ?_
    · exact pairwise_insertByCreatedDesc hacc
        (fun y hy => hcross y hy x (List.mem_cons_self _ _))
    · intro y hy z hz
      rcases (mem_insertByCreatedDesc x y acc).1 hy with rfl | hyacc
      · exact hx z hz
      · exact hcross y hyacc z (List.mem_cons_of_mem _ hz)

theorem get_all_posts_sorted_of_inv (s : AppState) (h : StoreInv s) :
    (get_all_posts s).Pairwise (fun a b =>
      b.created_at ≤ a.created_at ∧ (a.created_at = b.created_at → a.id < b.id)) := by
  obtain ⟨hkl, hkc, hsort, hif, hb, hnd⟩ := h
  show (sortByCreatedDesc (s.posts_db.map (fun kv => response_of s kv.1 kv.2))).Pairwise _
  rw [sortByCreatedDesc]
  refine pairwise_sortByCreatedDesc_aux _ [] (by simp) ?_ (by simp)
  rw [List.pairwise_map]
  have hsort' : s.posts_db.Pairwise (fun kv kv' => kv.1 < kv'.1) :=
    List.pairwise_map.1 hsort
  refine hsort'.imp_of_mem ?_
  intro kv kv' hm hm' hlt
  have h1 : (response_of s kv.1 kv.2).id = kv.1 := by
    simp [response_of, hif kv hm]
  have h2 : (response_of s kv'.1 kv'.2).id = kv'.1 := by
    simp [response_of, hif kv' hm']
  rw [h1, h2]
  exact hlt

theorem counters_step (s : AppState) (op : Op) :
    s.post_counter ≤ (step s op).post_counter ∧
    s.comment_counter ≤ (step s op).comment_counter := by
  cases op with
  | opRegister u e p =>
    show s.post_counter ≤ ((register s u e p).2).post_counter ∧
      s.comment_counter ≤ ((register s u e p).2).comment_counter
    cases hc : dictContains s.users_db u with
    | true => rw [register_taken s u e p hc]; exact ⟨Nat.le_refl _, Nat.le_refl _⟩
    | false => rw [register_free s u e p hc]; exact ⟨Nat.le_refl _, Nat.le_refl _⟩
  | opLogin u p => exact ⟨Nat.le_refl _, Nat.le_refl _⟩
  | opGetAllPosts => exact ⟨Nat.le_refl _, Nat.le_refl _⟩
  | opGetPost p => exact ⟨Nat.le_refl _, Nat.le_refl _⟩
  | opGetComments p => exact ⟨Nat.le_refl _, Nat.le_refl _⟩
  | opCreatePost auth t c now =>
    cases auth with
    | error e => exact ⟨Nat.le_refl _, Nat.le_refl _⟩
    | ok u => exact ⟨Nat.le_succ _, Nat.le_refl _⟩
  | opUpdatePost p auth patch now =>
    cases auth with
    | error e => exact ⟨Nat.le_refl _, Nat.le_refl _⟩
    | ok u =>
      show s.post_counter ≤ ((update_post s p (.ok u) patch now).2).post_counter ∧
        s.comment_counter ≤ ((update_post s p (.ok u) patch now).2).comment_counter
      rcases hget : dictGet s.posts_db p with _ | pd
      · rw [update_post_404 s p u patch now hget]; exact ⟨Nat.le_refl _, Nat.le_refl _⟩
      · by_cases hau : pd.author = u
        · rw [update_post_ok s p u patch now pd hget hau]
          exact ⟨Nat.le_refl _, Nat.le_refl _⟩
        · rw [update_post_403 s p u patch now pd hget hau]
          exact ⟨Nat.le_refl _, Nat.le_refl _⟩
  | opDeletePost p auth =>
    cases auth with
    | error e => exact ⟨Nat.le_refl _, Nat.le_refl _⟩
    | ok u =>
      show s.post_counter ≤ ((delete_post s p (.ok u)).2).post_counter ∧
        s.comment_counter ≤ ((delete_post s p (.ok u)).2).comment_counter
      rcases hget : dictGet s.posts_db p with _ | pd
      · rw [delete_post_404 s p u hget]; exact ⟨Nat.le_refl _, Nat.le_refl _⟩
      · by_cases hau : pd.author = u
        · simp only [delete_post, hget]
          rw [if_neg (fun hne => hne hau)]
          exact ⟨Nat.le_refl _, Nat.le_refl _⟩
        · rw [delete_post_403 s p u pd hget hau]; exact ⟨Nat.le_refl _, Nat.le_refl _⟩
  | opLikePost p auth =>
    cases auth with
    | error e => exact ⟨Nat.le_refl _, Nat.le_refl _⟩
    | ok u =>
      show s.post_counter ≤ ((like_post s p (.ok u)).2).post_counter ∧
        s.comment_counter ≤ ((like_post s p (.ok u)).2).comment_counter
      cases hcp : dictContains s.posts_db p with
      | false => rw [like_post_404 s p u hcp]; exact ⟨Nat.le_refl _, Nat.le_refl _⟩
      | true =>
        rcases hgl : dictGet s.likes_db p with _ | l
        · have hmem' : ¬ u ∈ likesOf s p := by simp [likesOf, hgl]
          rw [like_post_success s p u hcp hmem']
          exact ⟨Nat.le_refl _, Nat.le_refl _⟩
        · by_cases hmem : u ∈ l
          · rw [like_post_conflict s p u l hcp hgl hmem]
            exact ⟨Nat.le_refl _, Nat.le_refl _⟩
          · have hmem' : ¬ u ∈ likesOf s p := by simp [likesOf, hgl, hmem]
            rw [like_post_success s p u hcp hmem']
            exact ⟨Nat.le_refl _, Nat.le_refl _⟩
  | opUnlikePost p auth =>
    cases auth with
    | error e => exact ⟨Nat.le_refl _, Nat.le_refl _⟩
    | ok u =>
      show s.post_counter ≤ ((unlike_post s p (.ok u)).2).post_counter ∧
        s.comment_counter ≤ ((unlike_post s p (.ok u)).2).comment_counter
      cases hcp : dictContains s.posts_db p with
      | false => rw [unlike_post_404 s p u hcp]; exact ⟨Nat.le_refl _, Nat.le_refl _⟩
      | true =>
        rcases hgl : dictGet s.likes_db p with _ | l
        · have hmem' : ¬ u ∈ likesOf s p := by simp [likesOf, hgl]
          rw [unlike_post_notliked s p u hcp hmem']
          exact ⟨Nat.le_refl _, Nat.le_refl _⟩
        · by_cases hmem : u ∈ l
          · rw [unlike_post_success s p u l hcp hgl hmem]
            exact ⟨Nat.le_refl _, Nat.le_refl _⟩
          · have hmem' : ¬ u ∈ likesOf s p := by simp [likesOf, hgl, hmem]
            rw [unlike_post_notliked s p u hcp hmem']
            exact ⟨Nat.le_refl _, Nat.le_refl _⟩
  | opAddComment p auth c now =>
    cases auth with
    | error e => exact ⟨Nat.le_refl _, Nat.le_refl _⟩
    | ok u =>
      show s.post_counter ≤ ((add_comment s p (.ok u) c now).2).post_counter ∧
        s.comment_counter ≤ ((add_comment s p (.ok u) c now).2).comment_counter
      cases hcp : dictContains s.posts_db p with
      | false => rw [add_comment_404 s p u c now hcp]; exact ⟨Nat.le_refl _, Nat.le_refl _⟩
      | true =>
        rw [add_comment_ok s p u c now hcp]
        exact ⟨Nat.le_refl _, Nat.le_succ _⟩

theorem mem_createdIdOf (s : AppState) (op : Op) (i : Nat) (h : i ∈ createdIdOf s op) :
    i = s.post_counter + 1 ∧ (step s op).post_counter = s.post_counter + 1 := by
  cases op with
  | opRegister u e p => simp [createdIdOf] at h
  | opLogin u p => simp [createdIdOf] at h
  | opGetAllPosts => simp [createdIdOf] at h
  | opGetPost p => simp [createdIdOf] at h
  | opUpdatePost p auth patch now => simp [createdIdOf] at h
  | opDeletePost p auth => simp [createdIdOf] at h
  | opLikePost p auth => simp [createdIdOf] at h
  | opUnlikePost p auth => simp [createdIdOf] at h
  | opAddComment p auth c now => simp [createdIdOf] at h
  | opGetComments p => simp [createdIdOf] at h
  | opCreatePost auth t c now =>
    cases auth with
    | error e => simp [createdIdOf] at h
    | ok u =>
      simp only [createdIdOf, List.mem_singleton] at h
      exact ⟨h, rfl⟩

theorem mem_commentIdOf (s : AppState) (op : Op) (i : Nat) (h : i ∈ commentIdOf s op) :
    i = s.comment_counter + 1 ∧ (step s op).comment_counter = s.comment_counter + 1 := by
  cases op with
  | opRegister u e p => simp [commentIdOf] at h
  | opLogin u p => simp [commentIdOf] at h
  | opGetAllPosts => simp [commentIdOf] at h
  | opGetPost p => simp [commentIdOf] at h
  | opUpdatePost p auth patch now => simp [commentIdOf] at h
  | opDeletePost p auth => simp [commentIdOf] at h
  | opLikePost p auth => simp [commentIdOf] at h
  | opUnlikePost p auth => simp [commentIdOf] at h
  | opCreatePost auth t c now => simp [commentIdOf] at h
  | opGetComments p => simp [commentIdOf] at h
  | opAddComment p auth c now =>
    cases auth with
    | error e => simp [commentIdOf] at h
    | ok u =>
      cases hcp : dictContains s.posts_db p with
      | false => simp [commentIdOf, hcp] at h
      | true =>
        simp only [commentIdOf, hcp, if_true, List.mem_singleton] at h
        refine ⟨h, ?_⟩
        show ((add_comment s p (.ok u) c now).2).comment_counter = s.comment_counter + 1
        rw [add_comment_ok s p u c now hcp]

theorem createdIdOf_pairwise (s : AppState) (op : Op) :
    (createdIdOf s op).Pairwise (fun a b => a < b) := by
  cases op with
  | opRegister u e p => simp [createdIdOf]
  | opLogin u p => simp [createdIdOf]
  | opGetAllPosts => simp [createdIdOf]
  | opGetPost p => simp [createdIdOf]
  | opUpdatePost p auth patch now => simp [createdIdOf]
  | opDeletePost p auth => simp [createdIdOf]
  | opLikePost p auth => simp [createdIdOf]
  | opUnlikePost p auth => simp [createdIdOf]
  | opAddComment p auth c now => simp [createdIdOf]
  | opGetComments p => simp [createdIdOf]
  | opCreatePost auth t c now =>
    cases auth with
    | error e => simp [createdIdOf]
    | ok u => simp [createdIdOf]

theorem commentIdOf_pairwise (s : AppState) (op : Op) :
    (commentIdOf s op).Pairwise (fun a b => a < b) := by
  cases op with
  | opRegister u e p => simp [commentIdOf]
  | opLogin u p => simp [commentIdOf]
  | opGetAllPosts => simp [commentIdOf]
  | opGetPost p => simp [commentIdOf]
  | opUpdatePost p auth patch now => simp [commentIdOf]
  | opDeletePost p auth => simp [commentIdOf]
  | opLikePost p auth => simp [commentIdOf]
  | opUnlikePost p auth => simp [commentIdOf]
  | opCreatePost auth t c now => simp [commentIdOf]
  | opGetComments p => simp [commentIdOf]
  | opAddComment p auth c now =>
    cases auth with
    | error e => simp [commentIdOf]
    | ok u =>
      cases hcp : dictContains s.posts_db p with
      | false => simp [commentIdOf, hcp]
      | true => simp [commentIdOf, hcp]

theorem postIdsAssigned_gt (s : AppState) (ops : List Op) :
    ∀ i ∈ postIdsAssigned s ops, s.post_counter < i := by
  induction ops generalizing s with
  | nil => intro i hi; simp [postIdsAssigned] at hi
  | cons op rest ih =>
    intro i hi
    simp only [postIdsAssigned, List.mem_append] at hi
    rcases hi with hm | hm
    · have := (mem_createdIdOf s op i hm).1
      omega
    · have h1 := ih (step s op) i hm
      have h2 := (counters_step s op).1
      omega

theorem commentIdsAssigned_gt (s : AppState) (ops : List Op) :
    ∀ i ∈ commentIdsAssigned s ops, s.comment_counter < i := by
  induction ops generalizing s with
  | nil => intro i hi; simp [commentIdsAssigned] at hi
  | cons op rest ih =>
    intro i hi
    simp only [commentIdsAssigned, List.mem_append] at hi
    rcases hi with hm | hm
    · have := (mem_commentIdOf s op i hm).1
      omega
    · have h1 := ih (step s op) i hm
      have h2 := (counters_step s op).2
      omega

theorem postIdsAssigned_pairwise (s : AppState) (ops : List Op) :
    (postIdsAssigned s ops).Pairwise (fun a b => a < b) := by
  induction ops generalizing s with
  | nil => simp [postIdsAssigned]
  | cons op rest ih =>
    simp only [postIdsAssigned]
    rw [List.pairwise_append]
    refine ⟨createdIdOf_pairwise s op, ih (step s op), ?_⟩
    intro a ha b hb
    obtain ⟨ha1, ha2⟩ := mem_createdIdOf s op a ha
    have hb1 := postIdsAssigned_gt (step s op) rest b hb
    omega

theorem commentIdsAssigned_pairwise (s : AppState) (ops : List Op) :
    (commentIdsAssigned s ops).Pairwise (fun a b => a < b) := by
  induction ops generalizing s with
  | nil => simp [commentIdsAssigned]
  | cons op rest ih =>
    simp only [commentIdsAssigned]
    rw [List.pairwise_append]
    refine ⟨commentIdOf_pairwise s op, ih (step s op), ?_⟩
    intro a ha b hb
    obtain ⟨ha1, ha2⟩ := mem_commentIdOf s op a ha
    have hb1 := commentIdsAssigned_gt (step s op) rest b hb
    omega

/-- Example trace used for concrete witnesses: register alice, who creates two
posts at the same clock value 0. -/
def wOps : List Op :=
  [.opRegister "alice" "a@x.com" "pw1",
   .opCreatePost (.ok "alice") "t1" "c1" 0,
   .opCreatePost (.ok "alice") "t2" "c2" 0]

/-- The state reached by `wOps`. -/
def wState : AppState := runTrace initialState wOps

/-- C1 counterexample: in the reachable state with two posts created at the
same timestamp, `get_all_posts` returns them with ids [1, 2] — insertion
order — so the claimed id-descending tie order is false (Python's `sorted`
with `reverse=True` is stable and keeps ties in original order). -/
theorem C1_counterexample :
    ¬ ((get_all_posts wState).Pairwise (fun a b => b.created_at ≤ a.created_at) ∧
      (get_all_posts wState).Pairwise
        (fun a b => a.created_at = b.created_at → b.id < a.id)) := by
  decide

/-- C1 (amended): for every reachable state, `get_all_posts` returns the posts
sorted by `created_at` descending, and any two posts with equal `created_at`
appear in id-ascending (insertion) order. -/
theorem C1_listAll_sorted_desc_ties_id_asc (ops : List Op) :
    (get_all_posts (runTrace initialState ops)).Pairwise (fun a b =>
      b.created_at ≤ a.created_at ∧ (a.created_at = b.created_at → a.id < b.id)) :=
  get_all_posts_sorted_of_inv _ (storeInv_run ops initialState storeInv_initial)

/-- C2: for every mutating endpoint and every pre-state, a failed
authentication, a missing target post, or a non-author requester (update and
delete) produces the corresponding error with the entire state returned
exactly equal to the pre-state. -/
theorem C2_failed_requests_leave_state_unchanged (s : AppState) (e : HTTPError)
    (p : Nat) (u t c : String) (patch : BlogPostUpdate) (now : Nat) (pd : PostData) :
    create_post s (.error e) t c now = (.error e, s) ∧
    update_post s p (.error e) patch now = (.error e, s) ∧
    delete_post s p (.error e) = (.error e, s) ∧
    like_post s p (.error e) = (.error e, s) ∧
    unlike_post s p (.error e) = (.error e, s) ∧
    add_comment s p (.error e) c now = (.error e, s) ∧
    (dictGet s.posts_db p = none →
      update_post s p (.ok u) patch now = (.error ⟨404, "Post not found"⟩, s) ∧
      delete_post s p (.ok u) = (.error ⟨404, "Post not found"⟩, s) ∧
      like_post s p (.ok u) = (.error ⟨404, "Post not found"⟩, s) ∧
      unlike_post s p (.ok u) = (.error ⟨404, "Post not found"⟩, s) ∧
      add_comment s p (.ok u) c now = (.error ⟨404, "Post not found"⟩, s)) ∧
    (dictGet s.posts_db p = some pd → pd.author ≠ u →
      update_post s p (.ok u) patch now =
        (.error ⟨403, "Not authorized to update this post"⟩, s) ∧
      delete_post s p (.ok u) =
        (.error ⟨403, "Not authorized to delete this post"⟩, s)) := by
  refine ⟨rfl, rfl, rfl, rfl, rfl, rfl, ?_, ?_⟩
  · intro hget
    have hcp : dictContains s.posts_db p = false := by simp [dictContains, hget]
    exact ⟨update_post_404 s p u patch now hget, delete_post_404 s p u hget,
      like_post_404 s p u hcp, unlike_post_404 s p u hcp,
      add_comment_404 s p u c now hcp⟩
  · intro hget hau
    exact ⟨update_post_403 s p u patch now pd hget hau,
      delete_post_403 s p u pd hget hau⟩

/-- C2 witness: concrete failing requests against the example state. -/
theorem C2_witness :
    update_post wState 1 (.ok "bob") ⟨none, none⟩ 7 =
      (.error ⟨403, "Not authorized to update this post"⟩, wState) ∧
    delete_post wState 5 (.ok "alice") = (.error ⟨404, "Post not found"⟩, wState) ∧
    like_post wState 5 (.ok "alice") = (.error ⟨404, "Post not found"⟩, wState) := by
  have h1 := C2_failed_requests_leave_state_unchanged wState ⟨401, "x"⟩ 1 "bob" "t" "c"
    ⟨none, none⟩ 7 ⟨1, "t1", "c1", "alice", 0, 0⟩
  have h5 := C2_failed_requests_leave_state_unchanged wState ⟨401, "x"⟩ 5 "alice" "t" "c"
    ⟨none, none⟩ 7 ⟨1, "t1", "c1", "alice", 0, 0⟩
  refine ⟨?_, ?_, ?_⟩
  · exact (h1.2.2.2.2.2.2.2 (by decide) (by decide)).1
  · exact (h5.2.2.2.2.2.2.1 (by decide)).2.1
  · exact (h5.2.2.2.2.2.2.1 (by decide)).2.2.1

/-- C3: deleting an existing post as its author removes the post, its
like-set and its comment list: afterwards `get_post` and `get_comments` on it
return 404, `like_post`/`unlike_post` on it return 404 without changing the
state, the like and comment stores have no entry for it, and it does not
appear in `get_all_posts`. -/
theorem C3_delete_cascades (ops : List Op) (p : Nat) (u u2 : String) (pd : PostData)
    (hget : dictGet (runTrace initialState ops).posts_db p = some pd)
    (hau : pd.author = u) :
    (delete_post (runTrace initialState ops) p (.ok u)).1 =
      .ok "Post deleted successfully" ∧
    get_post (delete_post (runTrace initialState ops) p (.ok u)).2 p =
      .error ⟨404, "Post not found"⟩ ∧
    get_comments (delete_post (runTrace initialState ops) p (.ok u)).2 p =
      .error ⟨404, "Post not found"⟩ ∧
    (like_post (delete_post (runTrace initialState ops) p (.ok u)).2 p (.ok u2)).1 =
      .error ⟨404, "Post not found"⟩ ∧
    (like_post (delete_post (runTrace initialState ops) p (.ok u)).2 p (.ok u2)).2 =
      (delete_post (runTrace initialState ops) p (.ok u)).2 ∧
    (unlike_post (delete_post (runTrace initialState ops) p (.ok u)).2 p (.ok u2)).1 =
      .error ⟨404, "Post not found"⟩ ∧
    (unlike_post (delete_post (runTrace initialState ops) p (.ok u)).2 p (.ok u2)).2 =
      (delete_post (runTrace initialState ops) p (.ok u)).2 ∧
    dictGet (delete_post (runTrace initialState ops) p (.ok u)).2.likes_db p = none ∧
    dictGet (delete_post (runTrace initialState ops) p (.ok u)).2.comments_db p = none ∧
    (∀ r ∈ get_all_posts (delete_post (runTrace initialState ops) p (.ok u)).2,
      r.id ≠ p) := by
  obtain ⟨hkl, hkc, hsort, hif, hb, hnd⟩ := storeInv_run ops initialState storeInv_initial
  have hcl : dictContains (runTrace initialState ops).likes_db p = true := by
    rw [dictContains_eq_of_keys_eq p hkl]
    exact dictContains_of_get hget
  have hcc : dictContains (runTrace initialState ops).comments_db p = true := by
    rw [dictContains_eq_of_keys_eq p hkc]
    exact dictContains_of_get hget
  have hndk : (((runTrace initialState ops).posts_db.map (fun kv => kv.1))).Nodup :=
    hsort.imp (fun h => Nat.ne_of_lt h)
  have hndl : (((runTrace initialState ops).likes_db.map (fun kv => kv.1))).Nodup := by
    rw [hkl]
    exact hndk
  have hndc : (((runTrace initialState ops).comments_db.map (fun kv => kv.1))).Nodup := by
    rw [hkc]
    exact hndk
  rw [delete_post_ok _ p u pd hget hau hcl hcc]
  dsimp only
  have hg1 : dictGet (dictErase (runTrace initialState ops).posts_db p) p = none :=
    dictGet_dictErase_self _ _ hndk
  have hcp' : dictContains (dictErase (runTrace initialState ops).posts_db p) p = false := by
    simp [dictContains, hg1]
  refine ⟨rfl, ?_, ?_, ?_, ?_, ?_, ?_, ?_, ?_, ?_⟩
  · exact get_post_404 _ p hg1
  · exact get_comments_404 _ p hcp'
  · rw [like_post_404 _ p u2 hcp']
  · rw [like_post_404 _ p u2 hcp']
  · rw [unlike_post_404 _ p u2 hcp']
  · rw [unlike_post_404 _ p u2 hcp']
  · exact dictGet_dictErase_self _ _ hndl
  · exact dictGet_dictErase_self _ _ hndc
  · intro r hr
    have hr' := (sortByCreatedDesc_perm _).mem_iff.1 hr
    rcases List.mem_map.1 hr' with ⟨kv, hkv, hre⟩
    have hkvm : kv ∈ (runTrace initialState ops).posts_db :=
      (dictErase_sublist _ _).subset hkv
    have hidv : kv.2.id = kv.1 := hif kv hkvm
    have hr_id : r.id = kv.1 := by
      rw [← hre]
      simp [response_of, hidv]
    intro hrp
    have hkp : kv.1 = p := by omega
    have hmem : kv.1 ∈ (dictErase (runTrace initialState ops).posts_db p).map
        (fun kv => kv.1) :=
      List.mem_map_of_mem _ hkv
    rw [hkp] at hmem
    have hct := (dictContains_iff_mem_keys _ p).2 hmem
    rw [dictContains, hg1] at hct
    simp at hct

/-- C3 witness: delete post 1 of the example state as its author alice. -/
theorem C3_witness :
    (delete_post wState 1 (.ok "alice")).1 = .ok "Post deleted successfully" ∧
    get_post (delete_post wState 1 (.ok "alice")).2 1 = .error ⟨404, "Post not found"⟩ ∧
    dictGet (delete_post wState 1 (.ok "alice")).2.likes_db 1 = none := by
  have h := C3_delete_cascades wOps 1 "alice" "bob" ⟨1, "t1", "c1", "alice", 0, 0⟩
    (by decide) rfl
  exact ⟨h.1, h.2.1, h.2.2.2.2.2.2.2.1⟩

/-- C4: for an existing post, a duplicate like fails with the 400 conflict
error and leaves the state unchanged, a fresh like appends the user and
returns the new count, an unlike of a non-liker fails with the 400 error and
leaves the state unchanged, an unlike of a liker removes the user and returns
the new count, and both operations fail with 404 when the post is missing. -/
theorem C4_like_unlike_semantics (s : AppState) (p : Nat) (u : String) :
    (dictGet s.posts_db p = none →
      like_post s p (.ok u) = (.error ⟨404, "Post not found"⟩, s) ∧
      unlike_post s p (.ok u) = (.error ⟨404, "Post not found"⟩, s)) ∧
    (dictContains s.posts_db p = true → u ∈ likesOf s p →
      like_post s p (.ok u) = (.error ⟨400, "You have already liked this post"⟩, s)) ∧
    (dictContains s.posts_db p = true → ¬ u ∈ likesOf s p →
      (like_post s p (.ok u)).1 =
        .ok ⟨"Post liked successfully", (likesOf s p).length + 1⟩ ∧
      likesOf (like_post s p (.ok u)).2 p = likesOf s p ++ [u]) ∧
    (dictContains s.posts_db p = true → ¬ u ∈ likesOf s p →
      unlike_post s p (.ok u) = (.error ⟨400, "You haven't liked this post"⟩, s)) ∧
    (dictContains s.posts_db p = true → u ∈ likesOf s p →
      (unlike_post s p (.ok u)).1 =
        .ok ⟨"Post unliked successfully", ((likesOf s p).erase u).length⟩ ∧
      likesOf (unlike_post s p (.ok u)).2 p = (likesOf s p).erase u) := by
  refine ⟨?_, ?_, ?_, ?_, ?_⟩
  · intro hget
    have hcp : dictContains s.posts_db p = false := by simp [dictContains, hget]
    exact ⟨like_post_404 s p u hcp, unlike_post_404 s p u hcp⟩
  · intro hcp hmem
    rcases hgl : dictGet s.likes_db p with _ | l
    · exact absurd hmem (by simp [likesOf, hgl])
    · have hmem' : u ∈ l := by simpa [likesOf, hgl] using hmem
      exact like_post_conflict s p u l hcp hgl hmem'
  · intro hcp hmem
    rw [like_post_success s p u hcp hmem]
    exact ⟨rfl, by simp [likesOf, dictGet_dictSet_self]⟩
  · intro hcp hmem
    exact unlike_post_notliked s p u hcp hmem
  · intro hcp hmem
    rcases hgl : dictGet s.likes_db p with _ | l
    · exact absurd hmem (by simp [likesOf, hgl])
    · have hmem' : u ∈ l := by simpa [likesOf, hgl] using hmem
      rw [unlike_post_success s p u l hcp hgl hmem']
      have hl : likesOf s p = l := by simp [likesOf, hgl]
      rw [hl]
      exact ⟨rfl, by simp [likesOf, dictGet_dictSet_self]⟩

/-- C4 witness: like post 1 as bob (fresh), and hit 404 on the absent post 5. -/
theorem C4_witness :
    (like_post wState 1 (.ok "bob")).1 = .ok ⟨"Post liked successfully", 1⟩ ∧
    likesOf (like_post wState 1 (.ok "bob")).2 1 = ["bob"] ∧
    like_post wState 5 (.ok "bob") = (.error ⟨404, "Post not found"⟩, wState) := by
  have h1 := C4_like_unlike_semantics wState 1 "bob"
  have h5 := C4_like_unlike_semantics wState 5 "bob"
  refine ⟨?_, ?_, ?_⟩
  · exact (h1.2.2.1 (by decide) (by decide)).1
  · exact (h1.2.2.1 (by decide) (by decide)).2
  · exact (h5.1 (by decide)).1

/-- C5: every failed login produces exactly the same error value — status 401
with detail "Incorrect username or password" — whether the username is
unknown or the password is wrong, so no output distinguishes the two cases. -/
theorem C5_login_failure_uniform (s : AppState) (u p : String)
    (h : (login s u p).isOk = false) :
    login s u p = .error ⟨401, "Incorrect username or password"⟩ := by
  rcases hget : dictGet s.users_db u with _ | ur
  · exact login_unknown s u p hget
  · cases hv : verify_password p ur.hashed_password with
    | false => exact login_wrong s u p ur hget hv
    | true =>
      rw [login_ok s u p ur hget hv] at h
      simp [Except.isOk, Except.toBool] at h

/-- C5 witness: an unknown-username failure and a wrong-password failure
produce the identical error value. -/
theorem C5_witness :
    login wState "nobody" "pw1" = .error ⟨401, "Incorrect username or password"⟩ ∧
    login wState "alice" "wrong" = .error ⟨401, "Incorrect username or password"⟩ :=
  ⟨C5_login_failure_uniform wState "nobody" "pw1" (by decide),
   C5_login_failure_uniform wState "alice" "wrong" (by decide)⟩

/-- C6: a successful update stores exactly `appliedPatch`: omitted patch
fields keep their previous values, id, author and created_at are unchanged,
`updated_at` becomes the current time (even for an empty patch), every other
post is unchanged, and all other stores and counters are unchanged. -/
theorem C6_update_frame (s : AppState) (p : Nat) (u : String) (patch : BlogPostUpdate)
    (now : Nat) (pd : PostData) (hget : dictGet s.posts_db p = some pd)
    (hau : pd.author = u) :
    (update_post s p (.ok u) patch now).1 =
      .ok (response_of (update_post s p (.ok u) patch now).2 p
        (appliedPatch pd patch now)) ∧
    dictGet (update_post s p (.ok u) patch now).2.posts_db p =
      some (appliedPatch pd patch now) ∧
    (appliedPatch pd patch now).id = pd.id ∧
    (appliedPatch pd patch now).author = pd.author ∧
    (appliedPatch pd patch now).created_at = pd.created_at ∧
    (appliedPatch pd patch now).updated_at = now ∧
    (patch.title = none → (appliedPatch pd patch now).title = pd.title) ∧
    (patch.content = none → (appliedPatch pd patch now).content = pd.content) ∧
    (∀ q, q ≠ p →
      dictGet (update_post s p (.ok u) patch now).2.posts_db q = dictGet s.posts_db q) ∧
    (update_post s p (.ok u) patch now).2.users_db = s.users_db ∧
    (update_post s p (.ok u) patch now).2.likes_db = s.likes_db ∧
    (update_post s p (.ok u) patch now).2.comments_db = s.comments_db ∧
    (update_post s p (.ok u) patch now).2.post_counter = s.post_counter ∧
    (update_post s p (.ok u) patch now).2.comment_counter = s.comment_counter := by
  rw [update_post_ok s p u patch now pd hget hau]
  refine ⟨rfl, dictGet_dictSet_self _ _ _, rfl, rfl, rfl, rfl, ?_, ?_, ?_,
    rfl, rfl, rfl, rfl, rfl⟩
  · intro ht
    simp [appliedPatch, ht]
  · intro hc
    simp [appliedPatch, hc]
  · intro q hq
    exact dictGet_dictSet_ne _ _ _ _ (fun hh => hq hh.symm)

/-- C6 witness: patch only the title of post 1; content is kept, the sibling
post and the like store are untouched. -/
theorem C6_witness :
    dictGet (update_post wState 1 (.ok "alice") ⟨some "T", none⟩ 9).2.posts_db 1 =
      some ⟨1, "T", "c1", "alice", 0, 9⟩ ∧
    dictGet (update_post wState 1 (.ok "alice") ⟨some "T", none⟩ 9).2.posts_db 2 =
      dictGet wState.posts_db 2 ∧
    (update_post wState 1 (.ok "alice") ⟨some "T", none⟩ 9).2.likes_db =
      wState.likes_db := by
  have h := C6_update_frame wState 1 "alice" ⟨some "T", none⟩ 9
    ⟨1, "t1", "c1", "alice", 0, 0⟩ (by decide) rfl
  exact ⟨h.2.1, h.2.2.2.2.2.2.2.2.1 2 (by decide), h.2.2.2.2.2.2.2.2.2.2.1⟩

/-- C7: along every request trace within one process lifetime, the post ids
assigned by successful creations are strictly increasing (hence never
reused, even across deletions), and so are the comment ids drawn from the
single counter shared across all posts. -/
theorem C7_ids_strictly_increasing (ops : List Op) :
    (postIdsAssigned initialState ops).Pairwise (fun a b => a < b) ∧
    (commentIdsAssigned initialState ops).Pairwise (fun a b => a < b) :=
  ⟨postIdsAssigned_pairwise initialState ops, commentIdsAssigned_pairwise initialState ops⟩

/-- C8: in every reachable state, `get_post` returns the composed response
whose `likes_count` is the cardinality of the stored like-set and whose
`comments_count` is the length of the stored comment sequence, and every
element of `get_all_posts` satisfies the same two equations at its own id. -/
theorem C8_counts_match (ops : List Op) (p : Nat) (pd : PostData)
    (hget : dictGet (runTrace initialState ops).posts_db p = some pd) :
    get_post (runTrace initialState ops) p =
      .ok (response_of (runTrace initialState ops) p pd) ∧
    (response_of (runTrace initialState ops) p pd).likes_count =
      (likesOf (runTrace initialState ops) p).toFinset.card ∧
    (response_of (runTrace initialState ops) p pd).comments_count =
      (commentsOf (runTrace initialState ops) p).length ∧
    (∀ r ∈ get_all_posts (runTrace initialState ops),
      r.likes_count = (likesOf (runTrace initialState ops) r.id).toFinset.card ∧
      r.comments_count = (commentsOf (runTrace initialState ops) r.id).length) := by
  obtain ⟨hkl, hkc, hsort, hif, hb, hnd⟩ := storeInv_run ops initialState storeInv_initial
  have hln : ∀ q, (likesOf (runTrace initialState ops) q).Nodup := by
    intro q
    rcases hgl : dictGet (runTrace initialState ops).likes_db q with _ | l
    · simp [likesOf, hgl]
    · have := hnd (q, l) (dictGet_mem _ _ _ hgl)
      simpa [likesOf, hgl] using this
  refine ⟨get_post_ok _ p pd hget, ?_, rfl, ?_⟩
  · rw [List.toFinset_card_of_nodup (hln p)]
    rfl
  · intro r hr
    have hr' := (sortByCreatedDesc_perm _).mem_iff.1 hr
    rcases List.mem_map.1 hr' with ⟨kv, hkv, hre⟩
    have hidv : kv.2.id = kv.1 := hif kv hkv
    have hr_id : r.id = kv.1 := by
      rw [← hre]
      simp [response_of, hidv]
    constructor
    · rw [hr_id, ← hre, List.toFinset_card_of_nodup (hln kv.1)]
      rfl
    · rw [hr_id, ← hre]
      rfl

/-- C8 witness: post 1 of the example state has zero likes and comments. -/
theorem C8_witness :
    get_post wState 1 = .ok ⟨1, "t1", "c1", "alice", 0, 0, 0, 0⟩ := by
  have h := C8_counts_match wOps 1 ⟨1, "t1", "c1", "alice", 0, 0⟩ (by decide)
  exact h.1

/-- C9: registration fails (with the 400 duplicate-username error) exactly
when the username is already present, and succeeds exactly when it is free —
for arbitrary username, email and password strings, including empty ones,
since no field-level validation exists on the registration model. -/
theorem C9_register_iff_username_taken (s : AppState) (u e p : String) :
    ((register s u e p).1 = .error ⟨400, "Username already registered"⟩ ↔
      dictContains s.users_db u = true) ∧
    ((register s u e p).1 = .ok ⟨u, e⟩ ↔ dictContains s.users_db u = false) := by
  cases hc : dictContains s.users_db u with
  | true =>
    rw [register_taken s u e p hc]
    simp
  | false =>
    rw [register_free s u e p hc]
    simp

/-- C10: in every reachable state, the key list of the like store and the key
list of the comment store are exactly the key list of the post store; and a
successful creation installs an empty like-set and an empty comment list
under the new id. -/
theorem C10_key_sets_match_posts (ops : List Op) :
    ((runTrace initialState ops).likes_db.map (fun kv => kv.1) =
      (runTrace initialState ops).posts_db.map (fun kv => kv.1) ∧
    (runTrace initialState ops).comments_db.map (fun kv => kv.1) =
      (runTrace initialState ops).posts_db.map (fun kv => kv.1)) ∧
    (∀ s : AppState, ∀ u t c : String, ∀ now : Nat,
      dictGet (step s (.opCreatePost (.ok u) t c now)).likes_db (s.post_counter + 1) =
        some [] ∧
      dictGet (step s (.opCreatePost (.ok u) t c now)).comments_db (s.post_counter + 1) =
        some []) := by
  obtain ⟨hkl, hkc, _, _, _, _⟩ := storeInv_run ops initialState storeInv_initial
  refine ⟨⟨hkl, hkc⟩, ?_⟩
  intro s u t c now
  exact ⟨dictGet_dictSet_self _ _ _, dictGet_dictSet_self _ _ _⟩

end Blog
